import Mathlib

/-!
Verification of the incremental-backup repository's change-detection and
archival core.

Shallow embedding conventions:
* timestamps (`st_mtime`, the reference watermark) are rationals `ℚ`;
* filesystem trees are finite rose trees (`FSNode`); a source root that is
  absent or not a directory is `none` / a `file` node;
* per-file fallibility of the real filesystem is passed in explicitly: a
  `stat` map `String → Option ℚ` (`none` = `os.stat` raises), an `addOk`
  map `String → Bool` (whether adding that path to the archive succeeds),
  and `openOk` / `closeOk` / `ioOk` flags for container and store I/O;
* the persisted reference store is its textual content, `Option String`
  (`none` = the file does not exist); state is threaded explicitly;
* Python functions that return `None` are modelled with `Option` results.
-/

namespace Backup

/-- A wall-clock instant as consumed by `datetime.now().strftime(DATE_FORMAT)`
with `DATE_FORMAT = "%d-%m-%Y_%H-%M"`. -/
structure Clock where
  day : Nat
  month : Nat
  year : Nat
  hour : Nat
  minute : Nat
deriving DecidableEq

/-- Zero-padding to two digits, as Python `%d`, `%m`, `%H`, `%M` produce. -/
def pad2 (n : Nat) : String :=
  if n < 10 then "0" ++ toString n else toString n

/-- Zero-padding to four digits, as Python `%Y` produces. -/
def pad4 (n : Nat) : String :=
  if n < 10 then "000" ++ toString n
  else if n < 100 then "00" ++ toString n
  else if n < 1000 then "0" ++ toString n
  else toString n

/-- `datetime.now().strftime("%d-%m-%Y_%H-%M")`: the timestamp embedded in
archive file names (incremental.py line 108, completo.py line 119,
tasks.py lines 69 and 107). -/
def strftimeFecha (c : Clock) : String :=
  pad2 c.day ++ "-" ++ pad2 c.month ++ "-" ++ pad4 c.year ++ "_" ++
    pad2 c.hour ++ "-" ++ pad2 c.minute

/-- `f"COM_{nombre_base_zip}_{timestamp_str}.zip"` (completo.py line 120,
tasks.py line 70). -/
def zipFilenameCompleto (c : Clock) (nombre_base_zip : String) : String :=
  "COM_" ++ nombre_base_zip ++ "_" ++ strftimeFecha c ++ ".zip"

/-- `f"INC_{nombre_base_zip}_{timestamp_str}.zip"` (incremental.py line 109,
tasks.py line 108). -/
def zipFilenameIncremental (c : Clock) (nombre_base_zip : String) : String :=
  "INC_" ++ nombre_base_zip ++ "_" ++ strftimeFecha c ++ ".zip"

/-- A finalized archive on disk: its file name and its entry names in
insertion order.  Directory entries carry their trailing separator. -/
structure Artifact where
  filename : String
  entries : List String
deriving DecidableEq

/-- `crear_zip_completo` (completo.py lines 96-172; tasks.py lines 64-101 is
the same logic).  Inputs beyond the source text's parameters model the world:
`openOk` — creating the `ZipFile` container succeeds; `closeOk` — finalizing
it succeeds; `addOk p` — `zipf.write`/`zipf.writestr` on entry `p` succeeds
(a file that vanished or is unreadable has `addOk p = false`).
`empty_folders_to_add` keeps the source's `None` default as `Option`.
Returns `zip_errors_count` and the finalized artifact (`none` when the code
leaves no finalized container).  Entry names stand for the source paths; the
in-archive name of a file is its path relative to the source root, and an
empty directory's entry carries a trailing `/`. -/
def crear_zip_completo (c : Clock) (nombre_base_zip : String)
    (openOk closeOk : Bool) (addOk : String → Bool)
    (files_to_zip : List String) (empty_folders_to_add : Option (List String)) :
    Nat × Option Artifact :=
  if files_to_zip.isEmpty && (empty_folders_to_add.getD []).isEmpty then
    (0, none)
  else if !openOk then
    (files_to_zip.length + (empty_folders_to_add.getD []).length, none)
  else if !closeOk then
    ((files_to_zip.filter (fun p => !(addOk p))).length
       + ((empty_folders_to_add.getD []).filter (fun p => !(addOk p))).length
       + (files_to_zip.length + (empty_folders_to_add.getD []).length),
     none)
  else
    ((files_to_zip.filter (fun p => !(addOk p))).length
       + ((empty_folders_to_add.getD []).filter (fun p => !(addOk p))).length,
     some ⟨zipFilenameCompleto c nombre_base_zip,
           files_to_zip.filter (fun p => addOk p)
             ++ ((empty_folders_to_add.getD []).filter (fun p => addOk p)).map
                  (fun p => p ++ "/")⟩)

/-- `crear_zip_incremental` (incremental.py lines 92-127).  The loop has no
per-file `try`, so the first failing `zipf.write` raises into the outer
handler; the `with` block still closes the container, so the finalized
archive holds exactly the entries added before the failure (`takeWhile`).
The function body ends without a `return` value: the second component
models the Python return value, which is always `None`. -/
def crear_zip_incremental (c : Clock) (nombre_base_zip : String)
    (openOk : Bool) (addOk : String → Bool) (files_to_zip : List String) :
    Option Artifact × Option Nat :=
  if files_to_zip.isEmpty then
    (none, none)
  else if !openOk then
    (none, none)
  else
    (some ⟨zipFilenameIncremental c nombre_base_zip,
           files_to_zip.takeWhile addOk⟩,
     none)

/-- The copy of `crear_zip_incremental` in tasks.py (lines 103-122): same
naming and empty-input behavior, but each `zipf.write` sits in its own
try/except (lines 114-119), so a failed entry is skipped and the later
entries are still added (`filter`).  Nothing is counted, and the function
still returns `None`. -/
def crear_zip_incremental_tasks (c : Clock) (nombre_base_zip : String)
    (openOk : Bool) (addOk : String → Bool) (files_to_zip : List String) :
    Option Artifact × Option Nat :=
  if files_to_zip.isEmpty then
    (none, none)
  else if !openOk then
    (none, none)
  else
    (some ⟨zipFilenameIncremental c nombre_base_zip,
           files_to_zip.filter (fun p => addOk p)⟩,
     none)

/-! ## PathCatalog: `listar_contenido_recursivo` -/

/-- A filesystem subtree: a regular file or a directory with an ordered
listing of children (the order `os.scandir`/`os.walk` reports). -/
inductive FSNode where
  | file (name : String)
  | dir (name : String) (children : List FSNode)

/-- `os.path.join` with the POSIX separator. -/
def pathJoin (p n : String) : String := p ++ "/" ++ n

/-- The `filenames` component of one `os.walk` tuple: the names of the
regular-file children, in listing order. -/
def fsFileNames : List FSNode → List String
  | [] => []
  | FSNode.file n :: rest => n :: fsFileNames rest
  | FSNode.dir _ _ :: rest => fsFileNames rest

/-- The loop body of `listar_contenido_recursivo` over the `os.walk` tuples
of every PROPER descendant directory of the directory at path `p` whose
children are `cs` (the tuple of the directory at `p` itself is emitted by
the caller).  `os.walk` is top-down: each directory contributes all its
files, then its empty-directory marker, then recursion into its
subdirectories in listing order.  A directory is recorded as empty iff
`not dirnames and not filenames and dirpath != ruta_base`
(listador.py line 40, incremental.py line 86, completo.py line 89,
tasks.py line 59, main.py line 109). -/
def subWalks (rootPath : String) (p : String) : List FSNode → List String × List String
  | [] => ([], [])
  | FSNode.file _ :: rest => subWalks rootPath p rest
  | FSNode.dir n ch :: rest =>
      ((fsFileNames ch).map (fun m => pathJoin (pathJoin p n) m)
         ++ (subWalks rootPath (pathJoin p n) ch).1
         ++ (subWalks rootPath p rest).1,
       (if ch.isEmpty && (pathJoin p n != rootPath) then [pathJoin p n] else [])
         ++ (subWalks rootPath (pathJoin p n) ch).2
         ++ (subWalks rootPath p rest).2)

/-- `listar_contenido_recursivo(ruta_base)` (listador.py lines 5-43, and the
copies in incremental.py, completo.py, tasks.py, main.py): returns
`(lista_archivos, lista_carpetas_vacias)`.  `root = none` or a `file` node
models `os.path.isdir(ruta_base)` being false — the function logs and
returns two empty lists.  Otherwise it walks the tree; the root's own
`os.walk` tuple is emitted first (its empty-check is kept although
`dirpath != ruta_base` makes it vacuous for the root). -/
def listar_contenido_recursivo (rootPath : String) (root : Option FSNode) :
    List String × List String :=
  match root with
  | some (FSNode.dir _ cs) =>
      ((fsFileNames cs).map (fun m => pathJoin rootPath m)
         ++ (subWalks rootPath rootPath cs).1,
       (if cs.isEmpty && (rootPath != rootPath) then [rootPath] else [])
         ++ (subWalks rootPath rootPath cs).2)
  | _ => ([], [])

/-- Spec-side comparator for the claim that enumeration returns every
regular file under the root exactly once: the straightforward structural
collection of every file path in the forest `cs` below path `p`, in tree
order (files and directories interleaved as listed). -/
def archivosEsperados (p : String) : List FSNode → List String
  | [] => []
  | FSNode.file n :: rest => pathJoin p n :: archivosEsperados p rest
  | FSNode.dir n ch :: rest =>
      archivosEsperados (pathJoin p n) ch ++ archivosEsperados p rest

/-- Spec-side comparator for empty-directory classification: a descendant
directory is listed iff it has no children at all; the root is not a
candidate (only proper descendants appear). -/
def vaciasEsperadas (p : String) : List FSNode → List String
  | [] => []
  | FSNode.file _ :: rest => vaciasEsperadas p rest
  | FSNode.dir n ch :: rest =>
      (if ch.isEmpty then [pathJoin p n] else [])
        ++ vaciasEsperadas (pathJoin p n) ch ++ vaciasEsperadas p rest

/-- Induction principle for forests of `FSNode`, giving hypotheses for both
the children of a directory at the head and the tail of the list. -/
def forestInd {motive : List FSNode → Prop}
    (hnil : motive [])
    (hfile : ∀ n rest, motive rest → motive (FSNode.file n :: rest))
    (hdir : ∀ n ch rest, motive ch → motive rest →
      motive (FSNode.dir n ch :: rest)) :
    ∀ cs, motive cs
  | [] => hnil
  | FSNode.file n :: rest => hfile n rest (forestInd hnil hfile hdir rest)
  | FSNode.dir n ch :: rest =>
      hdir n ch rest (forestInd hnil hfile hdir ch)
        (forestInd hnil hfile hdir rest)

/-! ## ReferenceStore: `leer_ultima_fecha_backup` / `escribir_ultima_fecha_backup` -/

/-- Python `str.strip()`: removes leading and trailing whitespace. -/
def stripBlanks (s : String) : String :=
  ⟨((s.data.dropWhile Char.isWhitespace).reverse.dropWhile
      Char.isWhitespace).reverse⟩

/-- `leer_ultima_fecha_backup` (incremental.py lines 23-44; tasks.py
lines 124-133 is the same logic).  `store` is the text of
`last_backup_date.txt` (`none` = file absent).  `parse` abstracts Python's
`float(...)`: `none` models a `ValueError`, which the code turns into the
0.0 fallback, as it does for an absent or blank file. -/
def leer_ultima_fecha_backup (parse : String → Option ℚ)
    (store : Option String) : ℚ :=
  match store with
  | none => 0
  | some content =>
      if stripBlanks content = "" then 0
      else
        match parse (stripBlanks content) with
        | some v => v
        | none => 0

/-- `escribir_ultima_fecha_backup(timestamp)` (incremental.py lines 46-57,
tasks.py lines 135-141): overwrites the store with `str(timestamp)`; on an
I/O error (`ioOk = false`) it logs and returns, leaving the store as it
was — it never raises to the caller. -/
def escribir_ultima_fecha_backup (ioOk : Bool) (timestamp : ℚ)
    (store : Option String) : Option String :=
  if ioOk then some (reprStr timestamp) else store

/-! ## ChangeDetector and the incremental pipeline -/

/-- The per-file loop of `ejecutar_backup_incremental` (incremental.py
lines 146-169) and of `incremental_backup_task` (tasks.py lines 178-184):
`stat p = some t` is a successful `os.stat` with `st_mtime = t`; `none`
models the stat raising (vanished file, permission denied, other error) —
the file is counted as an error and excluded.  Returns
`(files_to_zip, archivos_error)`. -/
def seleccion (stat : String → Option ℚ) (last_backup_timestamp : ℚ) :
    List String → List String × Nat
  | [] => ([], 0)
  | p :: rest =>
      match stat p with
      | none =>
          ((seleccion stat last_backup_timestamp rest).1,
           (seleccion stat last_backup_timestamp rest).2 + 1)
      | some t =>
          if last_backup_timestamp < t then
            (p :: (seleccion stat last_backup_timestamp rest).1,
             (seleccion stat last_backup_timestamp rest).2)
          else
            seleccion stat last_backup_timestamp rest

/-- One incremental source together with the world it runs against. -/
structure IncSource where
  rootPath : String
  root : Option FSNode
  base : String
  openOk : Bool
  stat : String → Option ℚ
  addOk : String → Bool

/-- `ejecutar_backup_incremental` (incremental.py lines 131-178): catalog,
classify against `last_backup_timestamp`, archive the selection, return
`archivos_error`.  The store is passed through untouched — the function
performs no reference-store write.  Result: `(errors, artifact, store)`. -/
def ejecutar_backup_incremental (c : Clock) (s : IncSource) (ref : ℚ)
    (store : Option String) : Nat × Option Artifact × Option String :=
  ((seleccion s.stat ref (listar_contenido_recursivo s.rootPath s.root).1).2,
   (crear_zip_incremental c s.base s.openOk s.addOk
      (seleccion s.stat ref (listar_contenido_recursivo s.rootPath s.root).1).1).1,
   store)

/-- `incremental_backup_task` (tasks.py lines 165-194): the Celery per-source
incremental task.  Same catalog/classify/archive pipeline, but the task
itself ends with `escribir_ultima_fecha_backup(time.time())` (line 192),
writing the store once per source.  Returns
`(archivos_error, artifact, store')`. -/
def incremental_backup_task (c : Clock) (now : ℚ) (ioOk : Bool)
    (s : IncSource) (ref : ℚ) (store : Option String) :
    Nat × Option Artifact × Option String :=
  ((seleccion s.stat ref (listar_contenido_recursivo s.rootPath s.root).1).2,
   (crear_zip_incremental_tasks c s.base s.openOk s.addOk
      (seleccion s.stat ref (listar_contenido_recursivo s.rootPath s.root).1).1).1,
   escribir_ultima_fecha_backup ioOk now store)

/-! ## Full-backup pipeline -/

/-- One full-backup source together with the world it runs against. -/
structure FullSource where
  rootPath : String
  root : Option FSNode
  base : String
  openOk : Bool
  closeOk : Bool
  addOk : String → Bool

/-- `ejecutar_backup_completo` (completo.py lines 176-231): catalog, then
archive all files plus the empty directories.  Its per-file loop
(lines 208-222) only appends to a Python list, so `archivos_error_listado`
is always `0`; the kept `0 +` mirrors `total_errors =
archivos_error_listado + zip_creation_errors`.  No reference-store write:
the store is passed through untouched. -/
def ejecutar_backup_completo (c : Clock) (s : FullSource)
    (store : Option String) : Nat × Option String :=
  (0 + (crear_zip_completo c s.base s.openOk s.closeOk s.addOk
          (listar_contenido_recursivo s.rootPath s.root).1
          (some (listar_contenido_recursivo s.rootPath s.root).2)).1,
   store)

/-- `full_backup_task` (tasks.py lines 145-163): the Celery per-source full
task; after archiving it performs `escribir_ultima_fecha_backup(time.time())`
(line 161), writing the store once per source. -/
def full_backup_task (c : Clock) (now : ℚ) (ioOk : Bool) (s : FullSource)
    (store : Option String) : Nat × Option String :=
  ((crear_zip_completo c s.base s.openOk s.closeOk s.addOk
      (listar_contenido_recursivo s.rootPath s.root).1
      (some (listar_contenido_recursivo s.rootPath s.root).2)).1,
   escribir_ultima_fecha_backup ioOk now store)

/-- The per-source mode decision of `run_full_backup_process` (completo.py
lines 258-279).  `ov` models `entry.get('tipo_backup')`:
`none` — no per-source override; `some none` — an override object whose
`completo` field is not the literal `True`/`False` (or is not a dict);
`some (some b)` — `'completo'` explicitly `True`/`False`. -/
def shouldRunFull (globalMode : String) (ov : Option (Option Bool)) : Bool :=
  if globalMode = "full" then
    match ov with
    | some (some b) => b
    | some none => true
    | none => true
  else false

/-- One configuration entry of the full-backup dispatcher.  `wellFormed`
models the presence of the required `origen_ruta`/`destino_ruta`/
`nombre_base_zip` keys (completo.py line 284). -/
structure FullEntry where
  override : Option (Option Bool)
  wellFormed : Bool
  src : FullSource

/-- `run_full_backup_process` (completo.py lines 235-323): select the
entries that run as full, counting qualifying but incomplete entries as
configuration errors; if no task qualifies, `return 0` immediately
(lines 290-292) — before the reference-store write; otherwise run every
task, then perform the single `escribir_ultima_fecha_backup(time.time())`
(line 318) and return the aggregate error count. -/
def run_full_backup_process (c : Clock) (now : ℚ) (ioOk : Bool)
    (globalMode : String) (entries : List FullEntry)
    (store : Option String) : Nat × Option String :=
  let qualifying := entries.filter (fun e => shouldRunFull globalMode e.override)
  let tasks := qualifying.filter (fun e => e.wellFormed)
  let configErrors := (qualifying.filter (fun e => !e.wellFormed)).length
  if tasks.isEmpty then (0, store)
  else
    let acc := tasks.foldl
      (fun (acc : Nat × Option String) e =>
        (acc.1 + (ejecutar_backup_completo c e.src acc.2).1,
         (ejecutar_backup_completo c e.src acc.2).2))
      (configErrors, store)
    (acc.1, escribir_ultima_fecha_backup ioOk now acc.2)

/-! ## Hash-confirmation metadata-tracking mode (main.py) -/

/-- One row of the `archivos_respaldados` table:
`(FECHA_MOD, PESO, HASH)` for a path (main.py lines 40-48). -/
structure DBRecord where
  fecha_mod : ℚ
  peso : Nat
  hashv : String
deriving DecidableEq

/-- The observable state of one file during the main.py loop:
`stat = some (mtime, size)` or `none` when `os.stat` raises;
`hashResult` is what `generar_hash_archivo` returns if invoked
(`none` models its `None` on a read error). -/
structure FileObs where
  stat : Option (ℚ × Nat)
  hashResult : Option String
deriving DecidableEq

/-- The classification of one file by main.py's `ejecutar_backup_incremental`
summary counters. -/
inductive IncOutcome where
  | modificado
  | sinCambios
  | error
deriving DecidableEq

/-- The per-file body of main.py's `ejecutar_backup_incremental`
(lines 156-213) with `insertar_o_actualizar_archivo` (lines 54-71):
`info_db` is the stored record for the path (`obtener_info_archivo`).
Returns `(outcome, whether a content hash was computed, the record written
to the database if any)`.  Python truthiness of `hash_actual` is kept: an
empty-string hash is falsy (it cannot arise from `hexdigest`, but the
branch structure is preserved). -/
def procesar_archivo_db (info_db : Option DBRecord) (f : FileObs) :
    IncOutcome × Bool × Option DBRecord :=
  match f.stat with
  | none => (IncOutcome.error, false, none)
  | some (mt, sz) =>
      match info_db with
      | some r =>
          if mt = r.fecha_mod ∧ sz = r.peso then
            (IncOutcome.sinCambios, false, none)
          else
            match f.hashResult with
            | some h =>
                if h ≠ "" ∧ h ≠ r.hashv then
                  (IncOutcome.modificado, true, some ⟨mt, sz, h⟩)
                else if h = r.hashv then (IncOutcome.sinCambios, true, none)
                else (IncOutcome.error, true, none)
            | none => (IncOutcome.error, true, none)
      | none =>
          match f.hashResult with
          | some h =>
              if h ≠ "" then (IncOutcome.modificado, true, some ⟨mt, sz, h⟩)
              else (IncOutcome.error, true, none)
          | none => (IncOutcome.error, true, none)

/-! ## Supporting lemmas -/

theorem pathJoin_length (p n : String) :
    (pathJoin p n).length = p.length + 1 + n.length := by
  have h : ("/" : String).length = 1 := rfl
  simp [pathJoin, String.length_append, h]

theorem pathJoin_ne_of_le {rootPath p : String}
    (h : rootPath.length ≤ p.length) (n : String) : pathJoin p n ≠ rootPath := by
  intro e
  have := congrArg String.length e
  rw [pathJoin_length] at this
  omega

theorem subWalks_files_perm (rootPath : String) :
    ∀ cs p, ((fsFileNames cs).map (fun m => pathJoin p m)
        ++ (subWalks rootPath p cs).1).Perm (archivosEsperados p cs) := by
  intro cs
  induction cs using forestInd with
  | hnil =>
      intro p
      simp [fsFileNames, subWalks, archivosEsperados]
  | hfile n rest ih =>
      intro p
      simp only [fsFileNames, subWalks, archivosEsperados, List.map_cons,
        List.cons_append]
      exact (ih p).cons _
  | hdir n ch rest ihc ihr =>
      intro p
      rw [List.perm_iff_count]
      intro a
      have h1 := (ihc (pathJoin p n)).count_eq a
      have h2 := (ihr p).count_eq a
      simp only [fsFileNames, subWalks, archivosEsperados,
        List.count_append] at h1 h2 ⊢
      omega

theorem subWalks_vacias (rootPath : String) :
    ∀ cs p, rootPath.length ≤ p.length →
      (subWalks rootPath p cs).2 = vaciasEsperadas p cs := by
  intro cs
  induction cs using forestInd with
  | hnil =>
      intro p _
      simp [subWalks, vaciasEsperadas]
  | hfile n rest ih =>
      intro p h
      simp only [subWalks, vaciasEsperadas]
      exact ih p h
  | hdir n ch rest ihc ihr =>
      intro p h
      have hq : rootPath.length ≤ (pathJoin p n).length := by
        rw [pathJoin_length]; omega
      have hne : (pathJoin p n != rootPath) = true :=
        bne_iff_ne.mpr (pathJoin_ne_of_le h n)
      simp only [subWalks, vaciasEsperadas, ihc (pathJoin p n) hq, ihr p h,
        hne, Bool.and_true]

theorem mem_vaciasEsperadas_length :
    ∀ cs p q, q ∈ vaciasEsperadas p cs → p.length < q.length := by
  intro cs
  induction cs using forestInd with
  | hnil =>
      intro p q hq
      simp [vaciasEsperadas] at hq
  | hfile n rest ih =>
      intro p q hq
      simp only [vaciasEsperadas] at hq
      exact ih p q hq
  | hdir n ch rest ihc ihr =>
      intro p q hq
      simp only [vaciasEsperadas, List.mem_append] at hq
      rcases hq with (hq | hq) | hq
      · rcases em (ch.isEmpty = true) with he | he
        · rw [if_pos he] at hq
          simp only [List.mem_singleton] at hq
          subst hq
          rw [pathJoin_length]
          omega
        · rw [if_neg he] at hq
          simp at hq
      · have := ihc (pathJoin p n) q hq
        rw [pathJoin_length] at this
        omega
      · exact ihr p q hq

theorem seleccion_spec (stat : String → Option ℚ) (ref : ℚ) :
    ∀ files, seleccion stat ref files =
      (files.filter (fun p => match stat p with
         | some t => decide (ref < t)
         | none => false),
       (files.filter (fun p => (stat p).isNone)).length) := by
  intro files
  induction files with
  | nil => rfl
  | cons p rest ih =>
      cases hs : stat p with
      | none =>
          simp [seleccion, hs, ih, List.filter_cons, Option.isNone]
      | some t =>
          rcases em (ref < t) with hlt | hlt
          · simp [seleccion, hs, ih, List.filter_cons, hlt, Option.isNone]
          · simp [seleccion, hs, ih, List.filter_cons, hlt, Option.isNone]

/-! ## Claims -/

/-- Claim C1, amended: the incremental change selection includes a file in
the archive list iff its `st_mtime` is strictly greater than the reference
timestamp; in particular, with reference timestamp 0.0, every file whose
metadata can be read and whose mtime is strictly positive is selected.
(The original claim's "every file whose metadata can be read" fails for a
file with mtime 0.0, because the comparison is strict.) -/
theorem C1_seleccion_incremental :
    ∀ (stat : String → Option ℚ) (ref : ℚ) (files : List String) (p : String),
      (p ∈ (seleccion stat ref files).1 ↔
        (p ∈ files ∧ ∃ t, stat p = some t ∧ ref < t)) ∧
      ((∃ t, stat p = some t ∧ 0 < t) → p ∈ files →
        p ∈ (seleccion stat 0 files).1) := by
  intro stat ref files p
  have key : ∀ r : ℚ, p ∈ (seleccion stat r files).1 ↔
      (p ∈ files ∧ ∃ t, stat p = some t ∧ r < t) := by
    intro r
    rw [seleccion_spec]
    simp only [List.mem_filter]
    constructor
    · rintro ⟨hm, hf⟩
      refine ⟨hm, ?_⟩
      cases hs : stat p with
      | none => rw [hs] at hf; simp at hf
      | some t =>
          rw [hs] at hf
          simp only [decide_eq_true_eq] at hf
          exact ⟨t, rfl, hf⟩
    · rintro ⟨hm, t, ht, hlt⟩
      refine ⟨hm, ?_⟩
      rw [ht]
      simpa using hlt
  refine ⟨key ref, ?_⟩
  rintro ⟨t, ht, hpos⟩ hm
  exact (key 0).mpr ⟨hm, t, ht, hpos⟩

/-- Claim C1 is false as stated: the metadata of file `a` reads
successfully (`st_mtime = 0.0`), the reference timestamp is 0.0, yet the
file is not selected, because the code's comparison
`fecha_mod_actual > last_backup_timestamp` is strict. -/
theorem C1_counterexample :
    (fun _ : String => some (0 : ℚ)) "a" = some 0 ∧
    (seleccion (fun _ : String => some (0 : ℚ)) 0 ["a"]).1 = [] := by
  constructor
  · rfl
  · rfl

/-- Witness for C1 at a concrete input: a readable file with positive
mtime 5 is selected at reference 0. -/
theorem C1_witness :
    "a" ∈ (seleccion (fun _ : String => some (5 : ℚ)) 0 ["a"]).1 :=
  (C1_seleccion_incremental (fun _ => some 5) 0 ["a"] "a").2
    ⟨5, rfl, by norm_num⟩ (by simp)

/-- Claim C2, amended: for every full backup over a non-empty input the
artifact name is `COM_{base}_{DD-MM-YYYY_HH-MM}.zip` — the prefix the code
uses is `COM`, not `FULL` — and for every incremental backup it is
`INC_{base}_{DD-MM-YYYY_HH-MM}.zip`. -/
theorem C2_nombre_artefacto :
    ∀ (c : Clock) (base : String) (addOk : String → Bool)
      (files : List String) (dirs : Option (List String)) (fs : List String),
      ((files.isEmpty && (dirs.getD []).isEmpty) = false →
        (crear_zip_completo c base true true addOk files dirs).2 =
          some ⟨"COM_" ++ base ++ "_" ++ strftimeFecha c ++ ".zip",
                files.filter (fun p => addOk p)
                  ++ ((dirs.getD []).filter (fun p => addOk p)).map
                       (fun p => p ++ "/")⟩) ∧
      (fs.isEmpty = false →
        (crear_zip_incremental c base true addOk fs).1 =
          some ⟨"INC_" ++ base ++ "_" ++ strftimeFecha c ++ ".zip",
                fs.takeWhile addOk⟩) := by
  intro c base addOk files dirs fs
  constructor
  · intro h
    simp [crear_zip_completo, zipFilenameCompleto, h]
  · intro h
    simp [crear_zip_incremental, zipFilenameIncremental, h]

/-- Claim C2 is false as stated: at a concrete input the full-backup
artifact is named with prefix `COM`, not `FULL`. -/
theorem C2_counterexample :
    (crear_zip_completo ⟨1, 2, 2025, 3, 4⟩ "backup" true true (fun _ => true)
        ["f"] none).2 =
      some ⟨"COM_backup_01-02-2025_03-04.zip", ["f"]⟩ ∧
    "COM_backup_01-02-2025_03-04.zip" ≠ "FULL_backup_01-02-2025_03-04.zip" := by
  constructor
  · rfl
  · decide

/-- Witness for C2 at a concrete input. -/
theorem C2_witness :
    (crear_zip_completo ⟨1, 2, 2025, 3, 4⟩ "b" true true (fun _ => true)
        ["x"] none).2 =
      some ⟨"COM_" ++ "b" ++ "_" ++ strftimeFecha ⟨1, 2, 2025, 3, 4⟩ ++ ".zip",
            ["x"]⟩ ∧
    (crear_zip_incremental ⟨1, 2, 2025, 3, 4⟩ "b" true (fun _ => true)
        ["x"]).1 =
      some ⟨"INC_" ++ "b" ++ "_" ++ strftimeFecha ⟨1, 2, 2025, 3, 4⟩ ++ ".zip",
            ["x"]⟩ := by
  have h := C2_nombre_artefacto ⟨1, 2, 2025, 3, 4⟩ "b" (fun _ => true)
    ["x"] none ["x"]
  exact ⟨by simpa using h.1 rfl, by simpa using h.2 rfl⟩

/-- Claim C5, amended: on empty input (no files and no empty directories)
neither archive writer creates an artifact; the full writer returns an
error count of zero, while the incremental writer returns `None` — no
count at all — and reports no error.  Either way this is success. -/
theorem C5_entrada_vacia :
    ∀ (c : Clock) (base : String) (openOk closeOk : Bool)
      (addOk : String → Bool),
      crear_zip_completo c base openOk closeOk addOk [] none = (0, none) ∧
      crear_zip_completo c base openOk closeOk addOk [] (some []) = (0, none) ∧
      crear_zip_incremental c base openOk addOk [] = (none, none) := by
  intro c base openOk closeOk addOk
  exact ⟨rfl, rfl, rfl⟩

/-- Claim C5 is false as stated for the incremental writer: called with an
empty file list it creates no artifact but returns `None`, not an error
count of zero. -/
theorem C5_counterexample :
    crear_zip_incremental ⟨1, 1, 2025, 0, 0⟩ "base" true (fun _ => true) [] =
      (none, none) ∧
    (none : Option Nat) ≠ some 0 := by
  exact ⟨rfl, by simp⟩

/-- Claim C10: the incremental archive writer — the incremental.py version
and its tasks.py copy alike — returns no error count (always `None`), and
the error total returned by an incremental backup of a source — both the
incremental.py orchestrator and the Celery task — counts exactly the files
whose metadata read (`os.stat`) failed, independently of any failure while
adding entries to the archive. -/
theorem C10_errores_incremental :
    ∀ (c : Clock) (base : String) (openOk : Bool) (addOk : String → Bool)
      (files : List String) (s : IncSource) (ref : ℚ) (store : Option String)
      (now : ℚ) (ioOk : Bool),
      (crear_zip_incremental c base openOk addOk files).2 = none ∧
      (crear_zip_incremental_tasks c base openOk addOk files).2 = none ∧
      (ejecutar_backup_incremental c s ref store).1 =
        (((listar_contenido_recursivo s.rootPath s.root).1).filter
          (fun p => (s.stat p).isNone)).length ∧
      (incremental_backup_task c now ioOk s ref store).1 =
        (((listar_contenido_recursivo s.rootPath s.root).1).filter
          (fun p => (s.stat p).isNone)).length := by
  intro c base openOk addOk files s ref store now ioOk
  refine ⟨?_, ?_, ?_, ?_⟩
  · unfold crear_zip_incremental
    split
    · rfl
    · split
      · rfl
      · rfl
  · unfold crear_zip_incremental_tasks
    split
    · rfl
    · split
      · rfl
      · rfl
  · simp [ejecutar_backup_incremental, seleccion_spec]
  · simp [incremental_backup_task, seleccion_spec]

theorem foldl_tareas_fija_almacen (c : Clock) :
    ∀ (l : List FullEntry) (acc : Nat × Option String),
      (l.foldl (fun acc e =>
        (acc.1 + (ejecutar_backup_completo c e.src acc.2).1,
         (ejecutar_backup_completo c e.src acc.2).2)) acc).2 = acc.2 := by
  intro l
  induction l with
  | nil => intro acc; rfl
  | cons e rest ih =>
      intro acc
      simp only [List.foldl_cons]
      rw [ih]
      rfl

/-- Claim C3, amended: in the in-process orchestration, a single-source
backup execution (full `ejecutar_backup_completo` or incremental
`ejecutar_backup_incremental`) leaves the persisted reference-timestamp
store unchanged, and `run_full_backup_process` writes the store exactly
once per run, after all sources have completed.  In the Celery task
variant (tasks.py), however, each per-source task — `full_backup_task` and
`incremental_backup_task` alike — itself writes the store once at its own
end. -/
theorem C3_escritura_referencia :
    ∀ (c : Clock) (now : ℚ) (ioOk : Bool) (mode : String)
      (entries : List FullEntry) (store : Option String) (s : FullSource)
      (si : IncSource) (ref : ℚ),
      ((ejecutar_backup_completo c s store).2 = store) ∧
      ((ejecutar_backup_incremental c si ref store).2.2 = store) ∧
      (((entries.filter (fun e => shouldRunFull mode e.override)).filter
          (fun e => e.wellFormed)).isEmpty = false →
        (run_full_backup_process c now ioOk mode entries store).2 =
          escribir_ultima_fecha_backup ioOk now store) ∧
      ((full_backup_task c now ioOk s store).2 =
        escribir_ultima_fecha_backup ioOk now store) ∧
      ((incremental_backup_task c now ioOk si ref store).2.2 =
        escribir_ultima_fecha_backup ioOk now store) := by
  intro c now ioOk mode entries store s si ref
  refine ⟨rfl, rfl, ?_, rfl, rfl⟩
  intro h
  unfold run_full_backup_process
  simp only [h, Bool.false_eq_true, if_false]
  rw [foldl_tareas_fija_almacen]

/-- Claim C3 is false as stated: neither per-source Celery task leaves
the store unchanged — at a concrete input `full_backup_task` (tasks.py
line 161) and `incremental_backup_task` (tasks.py line 192) each
overwrite an absent store with the current instant. -/
theorem C3_counterexample :
    (full_backup_task ⟨1, 1, 2025, 0, 0⟩ 1 true
        ⟨"/r", none, "b", true, true, fun _ => true⟩ none).2 =
      some (reprStr (1 : ℚ)) ∧
    (incremental_backup_task ⟨1, 1, 2025, 0, 0⟩ 1 true
        ⟨"/r", none, "b", true, fun _ => none, fun _ => true⟩ 0 none).2.2 =
      some (reprStr (1 : ℚ)) ∧
    some (reprStr (1 : ℚ)) ≠ (none : Option String) := by
  exact ⟨rfl, rfl, by simp⟩

/-- Witness for C3 at a concrete input: one qualifying well-formed entry,
and the run's final store is a single write applied to the initial store. -/
theorem C3_witness :
    (run_full_backup_process ⟨1, 1, 2025, 0, 0⟩ 2 true "full"
        [⟨none, true, ⟨"/r", none, "b", true, true, fun _ => true⟩⟩]
        none).2 =
      escribir_ultima_fecha_backup true 2 none :=
  (C3_escritura_referencia ⟨1, 1, 2025, 0, 0⟩ 2 true "full"
    [⟨none, true, ⟨"/r", none, "b", true, true, fun _ => true⟩⟩] none
    ⟨"/r", none, "b", true, true, fun _ => true⟩
    ⟨"/r", none, "b", true, fun _ => none, fun _ => true⟩ 0).2.2.1 rfl

/-- Claim C4, amended, for the full archive writer (`crear_zip_completo`):
a file or empty-directory entry that fails while being added increments
the returned error count by one and is skipped while the archive is still
finalized with the remaining entries; if opening or finalizing the
container itself fails, every intended entry is counted as an error and no
finalized artifact is produced.  The incremental writer
(`crear_zip_incremental`) does not satisfy the original claim: it returns
no error count, and its per-file failure aborts the remaining adds. -/
theorem C4_aislamiento_fallos :
    ∀ (c : Clock) (base : String) (addOk : String → Bool)
      (files : List String) (dirs : Option (List String))
      (openOk closeOk : Bool),
      ((crear_zip_completo c base true true addOk files dirs).1 =
        (files.filter (fun p => !(addOk p))).length
          + ((dirs.getD []).filter (fun p => !(addOk p))).length) ∧
      ((files.isEmpty && (dirs.getD []).isEmpty) = false →
        (crear_zip_completo c base true true addOk files dirs).2 =
          some ⟨zipFilenameCompleto c base,
                files.filter (fun p => addOk p)
                  ++ ((dirs.getD []).filter (fun p => addOk p)).map
                       (fun p => p ++ "/")⟩) ∧
      ((openOk && closeOk) = false →
        (files.isEmpty && (dirs.getD []).isEmpty) = false →
        files.length + (dirs.getD []).length ≤
            (crear_zip_completo c base openOk closeOk addOk files dirs).1 ∧
          (crear_zip_completo c base openOk closeOk addOk files dirs).2 =
            none) := by
  intro c base addOk files dirs openOk closeOk
  refine ⟨?_, ?_, ?_⟩
  · cases hB : files.isEmpty && (dirs.getD []).isEmpty with
    | true =>
        have hf : files = [] := by
          have := (Bool.and_eq_true _ _).mp hB
          exact List.isEmpty_iff.mp this.1
        have hd : dirs.getD [] = [] := by
          have := (Bool.and_eq_true _ _).mp hB
          exact List.isEmpty_iff.mp this.2
        simp [crear_zip_completo, hB, hf, hd]
    | false => simp [crear_zip_completo, hB]
  · intro h
    simp [crear_zip_completo, h]
  · intro h h2
    cases ho : openOk with
    | false =>
        constructor
        · simp [crear_zip_completo, h2, ho]
        · simp [crear_zip_completo, h2, ho]
    | true =>
        have hc : closeOk = false := by
          rw [ho] at h
          simpa using h
        constructor
        · simp [crear_zip_completo, h2, ho, hc]
        · simp [crear_zip_completo, h2, ho, hc]

/-- Claim C4 is false as stated for the incremental writer: when the
second of three files fails to be added, the finalized archive contains
only the first entry (the loop aborts, dropping the third), and no error
count is returned. -/
theorem C4_counterexample :
    crear_zip_incremental ⟨1, 1, 2025, 0, 0⟩ "b" true (fun p => p != "x2")
        ["x1", "x2", "x3"] =
      (some ⟨"INC_b_01-01-2025_00-00.zip", ["x1"]⟩, none) ∧
    (none : Option Nat) ≠ some 1 := by
  exact ⟨rfl, by simp⟩

/-- Witness for C4 at a concrete input: one of three files plus one empty
directory fails to add, the count is 1; with an unwritable container the
call reports no finalized artifact. -/
theorem C4_witness :
    (crear_zip_completo ⟨1, 1, 2025, 0, 0⟩ "b" true true (fun p => p != "x2")
        ["x1", "x2", "x3"] (some ["d"])).1 = 1 ∧
    (crear_zip_completo ⟨1, 1, 2025, 0, 0⟩ "b" false true (fun p => p != "x2")
        ["x1", "x2", "x3"] (some ["d"])).2 = none := by
  constructor
  · rw [(C4_aislamiento_fallos ⟨1, 1, 2025, 0, 0⟩ "b" (fun p => p != "x2")
      ["x1", "x2", "x3"] (some ["d"]) true true).1]
    rfl
  · exact ((C4_aislamiento_fallos ⟨1, 1, 2025, 0, 0⟩ "b" (fun p => p != "x2")
      ["x1", "x2", "x3"] (some ["d"]) false true).2.2 rfl rfl).2

/-- Claim C6: enumeration returns every regular file under the root
exactly once (as a root-joined path, at any depth) — its output counts
agree everywhere with the structural collection `archivosEsperados` — and
its empty-directory list is exactly the proper descendant directories with
zero files and zero subdirectories at visit time (`vaciasEsperadas`), the
root itself never among them; an invalid or inaccessible root yields the
empty result instead of failing. -/
theorem C6_enumeracion :
    ∀ (rootPath : String) (root : Option FSNode),
      ((∀ nm cs, root ≠ some (FSNode.dir nm cs)) →
        listar_contenido_recursivo rootPath root = ([], [])) ∧
      (∀ nm cs, root = some (FSNode.dir nm cs) →
        (∀ q, ((listar_contenido_recursivo rootPath root).1).count q =
            (archivosEsperados rootPath cs).count q) ∧
        (listar_contenido_recursivo rootPath root).2 =
          vaciasEsperadas rootPath cs ∧
        rootPath ∉ (listar_contenido_recursivo rootPath root).2) := by
  intro rootPath root
  constructor
  · intro h
    match root with
    | none => rfl
    | some (FSNode.file n) => rfl
    | some (FSNode.dir nm cs) => exact absurd rfl (h nm cs)
  · intro nm cs he
    subst he
    have hroot : (rootPath != rootPath) = false := by simp
    have hlist : listar_contenido_recursivo rootPath
        (some (FSNode.dir nm cs)) =
        ((fsFileNames cs).map (fun m => pathJoin rootPath m)
           ++ (subWalks rootPath rootPath cs).1,
         (subWalks rootPath rootPath cs).2) := by
      simp [listar_contenido_recursivo, hroot]
    refine ⟨?_, ?_, ?_⟩
    · intro q
      rw [hlist]
      exact (subWalks_files_perm rootPath cs rootPath).count_eq q
    · rw [hlist]
      exact subWalks_vacias rootPath cs rootPath le_rfl
    · rw [hlist]
      intro hmem
      simp only at hmem
      rw [subWalks_vacias rootPath cs rootPath le_rfl] at hmem
      have := mem_vaciasEsperadas_length cs rootPath rootPath hmem
      omega

/-- Witness for C6 at a concrete tree and at an invalid root. -/
theorem C6_witness :
    ((∀ q, ((listar_contenido_recursivo "/r"
        (some (FSNode.dir "r" [FSNode.file "a", FSNode.dir "d" []]))).1).count q =
      (archivosEsperados "/r" [FSNode.file "a", FSNode.dir "d" []]).count q) ∧
     (listar_contenido_recursivo "/r"
        (some (FSNode.dir "r" [FSNode.file "a", FSNode.dir "d" []]))).2 =
       vaciasEsperadas "/r" [FSNode.file "a", FSNode.dir "d" []] ∧
     "/r" ∉ (listar_contenido_recursivo "/r"
        (some (FSNode.dir "r" [FSNode.file "a", FSNode.dir "d" []]))).2) ∧
    listar_contenido_recursivo "/x" none = ([], []) :=
  ⟨(C6_enumeracion "/r"
      (some (FSNode.dir "r" [FSNode.file "a", FSNode.dir "d" []]))).2
      "r" [FSNode.file "a", FSNode.dir "d" []] rfl,
   (C6_enumeracion "/x" none).1 (fun _ _ h => Option.noConfusion h)⟩

/-- Claim C7: the reference store's read returns 0.0 when the store file
is absent, when its stripped content is empty, and when the content is
unparsable; when parsing succeeds it returns the parsed value — it is
total.  The write is total as well: it either replaces the content with
the rendered timestamp or, on an I/O error, logs and leaves the store as
it was, never raising. -/
theorem C7_almacen_referencia :
    ∀ (parse : String → Option ℚ) (s : String) (store : Option String)
      (ioOk : Bool) (ts : ℚ),
      leer_ultima_fecha_backup parse none = 0 ∧
      (stripBlanks s = "" → leer_ultima_fecha_backup parse (some s) = 0) ∧
      (parse (stripBlanks s) = none →
        leer_ultima_fecha_backup parse (some s) = 0) ∧
      (∀ v, stripBlanks s ≠ "" → parse (stripBlanks s) = some v →
        leer_ultima_fecha_backup parse (some s) = v) ∧
      escribir_ultima_fecha_backup ioOk ts store =
        (if ioOk then some (reprStr ts) else store) := by
  intro parse s store ioOk ts
  refine ⟨rfl, ?_, ?_, ?_, rfl⟩
  · intro h
    simp [leer_ultima_fecha_backup, h]
  · intro h
    unfold leer_ultima_fecha_backup
    rcases em (stripBlanks s = "") with he | he
    · simp [he]
    · simp [he, h]
  · intro v he h
    unfold leer_ultima_fecha_backup
    simp [he, h]

/-- Witness for C7 at concrete inputs: unparsable content falls back to 0,
and parseable content is returned. -/
theorem C7_witness :
    leer_ultima_fecha_backup (fun _ => none) (some "garbage") = 0 ∧
    leer_ultima_fecha_backup (fun _ => some (5 : ℚ)) (some " 5 ") = 5 := by
  constructor
  · exact (C7_almacen_referencia (fun _ => none) "garbage" none true 0).2.2.1 rfl
  · exact (C7_almacen_referencia (fun _ => some (5 : ℚ)) " 5 " none true
      0).2.2.2.1 5 (by decide) rfl

/-- Claim C8: in the hash-confirmation mode, for a file with an existing
database record the content hash is recomputed only when the current mtime
or size differs from the stored record, and the file is promoted to
"changed" — record updated, counted as modified — only if the recomputed
hash exists and differs from the stored hash. -/
theorem C8_modo_hash :
    ∀ (r : DBRecord) (f : FileObs) (mt : ℚ) (sz : Nat),
      f.stat = some (mt, sz) →
      (((procesar_archivo_db (some r) f).2.1 = true →
         ¬(mt = r.fecha_mod ∧ sz = r.peso)) ∧
       ((mt = r.fecha_mod ∧ sz = r.peso) →
         procesar_archivo_db (some r) f =
           (IncOutcome.sinCambios, false, none)) ∧
       ((procesar_archivo_db (some r) f).1 = IncOutcome.modificado →
         ∃ h, f.hashResult = some h ∧ h ≠ r.hashv ∧
           (procesar_archivo_db (some r) f).2.2 = some ⟨mt, sz, h⟩)) := by
  intro r f mt sz hstat
  rcases em (mt = r.fecha_mod ∧ sz = r.peso) with he | he
  · refine ⟨?_, ?_, ?_⟩
    · intro hc
      simp [procesar_archivo_db, hstat, he] at hc
    · intro _
      simp [procesar_archivo_db, hstat, he]
    · intro hm
      simp [procesar_archivo_db, hstat, he] at hm
  · refine ⟨fun _ => he, fun hcontra => absurd hcontra he, ?_⟩
    intro hm
    cases hh : f.hashResult with
    | none => simp [procesar_archivo_db, hstat, he, hh] at hm
    | some h =>
        rcases em (h ≠ "" ∧ h ≠ r.hashv) with hd | hd
        · exact ⟨h, rfl, hd.2, by simp [procesar_archivo_db, hstat, he, hh, hd]⟩
        · rcases em (h = r.hashv) with hv | hv
          · simp [procesar_archivo_db, hstat, he, hh, hd, hv] at hm
          · have h0 : h = "" := by
              rcases em (h = "") with h0 | h0
              · exact h0
              · exact absurd ⟨h0, hv⟩ hd
            subst h0
            simp [procesar_archivo_db, hstat, he, hh, hv] at hm

/-- Witness for C8 at concrete inputs: matching metadata skips the hash
and reports no change; differing mtime with a differing hash promotes the
file and updates the record. -/
theorem C8_witness :
    procesar_archivo_db (some ⟨1, 10, "h1"⟩) ⟨some (1, 10), some "g1"⟩ =
      (IncOutcome.sinCambios, false, none) ∧
    ∃ h, (⟨some (2, 10), some "g1"⟩ : FileObs).hashResult = some h ∧
      h ≠ "h1" ∧
      (procesar_archivo_db (some ⟨1, 10, "h1"⟩) ⟨some (2, 10), some "g1"⟩).2.2 =
        some ⟨2, 10, h⟩ := by
  constructor
  · exact (C8_modo_hash ⟨1, 10, "h1"⟩ ⟨some (1, 10), some "g1"⟩ 1 10
      rfl).2.1 ⟨rfl, rfl⟩
  · exact (C8_modo_hash ⟨1, 10, "h1"⟩ ⟨some (2, 10), some "g1"⟩ 2 10
      rfl).2.2 (by decide)

/-- Claim C9: when no configuration entry qualifies for a full run (every
entry is excluded by its override or the global mode is not "full"),
`run_full_backup_process` returns 0 and terminates without writing the
reference-timestamp store. -/
theorem C9_sin_tareas :
    ∀ (c : Clock) (now : ℚ) (ioOk : Bool) (mode : String)
      (entries : List FullEntry) (store : Option String),
      (∀ e ∈ entries, shouldRunFull mode e.override = false) →
      run_full_backup_process c now ioOk mode entries store = (0, store) := by
  intro c now ioOk mode entries store h
  have hq : entries.filter (fun e => shouldRunFull mode e.override) = [] :=
    List.filter_eq_nil_iff.mpr (by intro e he; simp [h e he])
  unfold run_full_backup_process
  simp [hq]

/-- Witness for C9 at a concrete input: the single entry is excluded from
a full run by its explicit override, so the run returns 0 and the store is
untouched. -/
theorem C9_witness :
    run_full_backup_process ⟨1, 1, 2025, 0, 0⟩ 3 true "full"
      [⟨some (some false), true, ⟨"/r", none, "b", true, true, fun _ => true⟩⟩]
      (some "old") = (0, some "old") :=
  C9_sin_tareas ⟨1, 1, 2025, 0, 0⟩ 3 true "full"
    [⟨some (some false), true, ⟨"/r", none, "b", true, true, fun _ => true⟩⟩]
    (some "old")
    (by
      intro e he
      simp only [List.mem_singleton] at he
      subst he
      rfl)

end Backup
